import Mathlib

/-!
# ProxWarden — verification of the failure-detection and recovery-orchestration core

Shallow embedding of the ProxWarden daemon's core (Go sources under
`internal/monitor`, `internal/failover`, `internal/daemon`, `internal/api`)
and proofs about it.

Time values (`time.Time`, `time.Duration`) are abstracted as `Nat` ticks;
Go `error` values are abstracted as `Option String` / `Except String`;
the Proxmox API client and hook processes are abstracted as oracles passed
in explicitly.
-/

/-! ## Data model (internal/health, internal/api, internal/config) -/

/-- Embedding of `health.CheckResult` (internal/health/checker.go). -/
structure CheckResult where
  kind : String
  target : String
  success : Bool
  error : Option String
  duration : Nat
  timestamp : Nat
deriving Repr, DecidableEq

/-- Embedding of `config.HealthCheck`: one probe specification. -/
structure HealthCheck where
  kind : String
  target : String
  port : Nat
  path : String
  timeoutMs : Nat
deriving Repr, DecidableEq

/-- Embedding of `config.ContainerConfig`: one monitored workload (config-derived). -/
structure ContainerConfig where
  id : Nat
  name : String
  healthChecks : List HealthCheck
  failoverNodes : List String
  backupStorage : String
  storage : String
deriving Repr, DecidableEq

/-- Embedding of `api.ContainerInfo` (internal/api/client.go). -/
structure ContainerInfo where
  id : Nat
  name : String
  node : String
  status : String
deriving Repr, DecidableEq

/-- Embedding of `api.NodeInfo` (internal/api/client.go). -/
structure NodeInfo where
  name : String
  status : String
  online : Bool
deriving Repr, DecidableEq

/-- Embedding of `api.BackupInfo` (internal/api/client.go). -/
structure BackupInfo where
  node : String
  storage : String
  filename : String
  size : Nat
  format : String
deriving Repr, DecidableEq

/-! ## Workload State Tracker (internal/monitor, src/unnamed/part_001) -/

/-- Embedding of `monitor.ContainerState`. -/
structure ContainerState where
  id : Nat
  name : String
  node : String
  lastSeen : Nat
  failureCount : Nat
  healthyCount : Nat
  status : String
  lastHealthCheck : Nat
  healthResults : List CheckResult
deriving Repr, DecidableEq

/-- Embedding of `Monitor.recordSuccess` (part_001 lines 162-175): increments
`HealthyCount`; if `FailureCount` was positive, resets it to zero. -/
def recordSuccess (state : ContainerState) : ContainerState :=
  let s := { state with healthyCount := state.healthyCount + 1 }
  if s.failureCount > 0 then { s with failureCount := 0 } else s

/-- Embedding of `Monitor.recordFailure` (part_001 lines 177-200): increments
`FailureCount`; the returned flag is `true` exactly when the callbacks are
dispatched, which the code does whenever
`failureCount >= m.config.Monitoring.FailureThreshold` holds after the
increment. -/
def recordFailure (threshold : Nat) (state : ContainerState) :
    ContainerState × Bool :=
  let s := { state with failureCount := state.failureCount + 1 }
  (s, decide (threshold ≤ s.failureCount))

/-- Embedding of `Monitor.checkContainer` (part_001 lines 100-160).  Inputs abstract the
external world: `getContainer` is the result of `apiClient.GetContainer`,
`runHealthCheck` the result of `checker.RunHealthCheck` for each configured
probe, `now` the current clock tick.  Returns the updated state, the list of
probe results actually produced this cycle (empty when probes were skipped),
and whether the failure callbacks were dispatched. -/
def checkContainer (threshold : Nat) (container : ContainerConfig)
    (getContainer : Except String ContainerInfo)
    (runHealthCheck : HealthCheck → CheckResult)
    (now : Nat) (state : ContainerState) :
    ContainerState × List CheckResult × Bool :=
  match getContainer with
  | .error _ =>
    let r := recordFailure threshold state
    (r.1, [], r.2)
  | .ok info =>
    let s1 := { state with node := info.node, status := info.status, lastSeen := now }
    if info.status ≠ "running" then
      (s1, [], false)
    else
      let results := container.healthChecks.map runHealthCheck
      let allHealthy := results.all (fun r => r.success)
      let s2 := { s1 with lastHealthCheck := now, healthResults := results }
      if allHealthy then
        (recordSuccess s2, results, false)
      else
        let r := recordFailure threshold s2
        (r.1, results, r.2)

/-! ## Target Selector (`Engine.selectBestNode`, internal/failover/engine.go
lines 180-239) -/

/-- The `nodeCandidate` record built inside `selectBestNode`. -/
structure NodeCandidate where
  name : String
  priority : Nat
  online : Bool
deriving Repr, DecidableEq

/-- The `nodeStatus` map built by `for _, node := range nodes {
nodeStatus[node.Name] = node }` (engine.go lines 191-194): a later entry for
the same name overwrites an earlier one. -/
def nodeStatusMap (nodes : List NodeInfo) (n : String) : Option NodeInfo :=
  nodes.foldl (fun acc nd => if nd.name = n then some nd else acc) none

/-- The candidate-building loop (engine.go lines 203-220): iterate over the
configured failover nodes with their indices, skip the current node, skip
(with a warning) nodes absent from the cluster snapshot, and record the
remaining ones with `priority = index` and the snapshot's `Online` flag. -/
def buildCandidates (currentNode : String) (lookup : String → Option NodeInfo) :
    List (Nat × String) → List NodeCandidate
  | [] => []
  | p :: rest =>
    if p.2 = currentNode then buildCandidates currentNode lookup rest
    else
      match lookup p.2 with
      | none => buildCandidates currentNode lookup rest
      | some node =>
        { name := p.2, priority := p.1, online := node.online } ::
          buildCandidates currentNode lookup rest

/-- The comparator passed to `sort.Slice` (engine.go lines 227-232): online
status first (online nodes sort before offline ones), then lower priority
index first. -/
def candidateLess (a b : NodeCandidate) : Bool :=
  if a.online != b.online then a.online
  else decide (a.priority < b.priority)

/-- Left fold keeping the smaller element under `candidateLess`. -/
def pickMin (c : NodeCandidate) (t : List NodeCandidate) : NodeCandidate :=
  t.foldl (fun b x => if candidateLess x b then x else b) c

/-- Go sorts `candidates` with `sort.Slice` (an unstable sort) under
`candidateLess` and then reads `candidates[0]`.  On the lists produced by
`buildCandidates` all priorities are distinct, so `candidateLess` is a strict
total order there and the element at index 0 after *any* sort is its unique
minimum, which this function computes directly. -/
def bestCandidate : List NodeCandidate → Option NodeCandidate
  | [] => none
  | c :: t => some (pickMin c t)

/-- Embedding of `Engine.selectBestNode` (engine.go lines 180-239), with the result of
`apiClient.GetNodes` passed in as `nodesResult`. -/
def selectBestNode (failoverNodes : List String)
    (nodesResult : Except String (List NodeInfo)) (currentNode : String)
    (containerID : Nat) : Except String String :=
  if failoverNodes.isEmpty then
    .error ("no failover nodes configured for container " ++ toString containerID)
  else
    match nodesResult with
    | .error e => .error ("failed to get nodes: " ++ e)
    | .ok nodes =>
      let candidates :=
        buildCandidates currentNode (nodeStatusMap nodes) (List.enumFrom 0 failoverNodes)
      match bestCandidate candidates with
      | none =>
        .error ("no available failover nodes for container " ++ toString containerID)
      | some best =>
        if best.online then .ok best.name
        else .error ("no online failover nodes available for container " ++ toString containerID)

/-- Liveness of a configured node name under the cluster snapshot: present in
the snapshot (last entry winning, as in the Go map) and online.  Absence from
the snapshot counts as not live. -/
def isLive (nodes : List NodeInfo) (n : String) : Bool :=
  match nodeStatusMap nodes n with
  | none => false
  | some node => node.online

/-- The configured candidates that remain after removing the current host and
that are live under the snapshot, in configured order. -/
def eligibleLiveNodes (failoverNodes : List String) (nodes : List NodeInfo)
    (currentNode : String) : List String :=
  failoverNodes.filter fun x => decide (x ≠ currentNode) && isLive nodes x

/-- A fresh workload state as initialised by `Monitor.Start`
(part_001 lines 57-70): both counters zero. -/
def initialContainerState : ContainerState :=
  { id := 100, name := "test", node := "", lastSeen := 0, failureCount := 0,
    healthyCount := 0, status := "unknown", lastHealthCheck := 0,
    healthResults := [] }

/-! ## Breach-notification dispatch model (C2)

`Monitor.recordFailure` dispatches each failure callback as a fresh goroutine
(`go callback(state.ID, state)`, part_001 lines 195-198) whenever the
incremented counter is at or above the threshold, and the daemon's sole
callback runs `failoverEngine.HandleContainerFailure` synchronously inside
that goroutine (daemon.go lines 55-67).  Neither the monitor nor the engine
consults any "recovery in progress" flag.  We model the interleaving as a
step relation on a state holding the per-workload failure counters and the
multiset (list) of in-flight recovery goroutines. -/

/-- Per-workload failure counters plus the in-flight recovery goroutines. -/
structure DispatchState where
  counters : Nat → Nat
  inflight : List Nat

/-- Daemon start: all counters zero, no recovery in flight. -/
def dispatchInit : DispatchState :=
  { counters := fun _ => 0, inflight := [] }

/-- One failed check cycle for workload `w`: `recordFailure` increments the
counter and, whenever the new value is at or above the threshold,
unconditionally spawns the failure callback (one new in-flight recovery).
No in-flight check guards the spawn. -/
def dispatchFail (threshold w : Nat) (s : DispatchState) : DispatchState :=
  let c := s.counters w + 1
  { counters := fun x => if x = w then c else s.counters x,
    inflight := if threshold ≤ c then w :: s.inflight else s.inflight }

/-- One healthy check cycle for workload `w`: `recordSuccess` resets the
failure counter to zero and spawns nothing. -/
def dispatchHealthy (w : Nat) (s : DispatchState) : DispatchState :=
  { s with counters := fun x => if x = w then 0 else s.counters x }

/-- Interleaving semantics of the dispatch: a failed cycle, a healthy cycle,
or the completion of one in-flight recovery goroutine. -/
inductive DispatchStep (threshold : Nat) : DispatchState → DispatchState → Prop where
  | fail (w : Nat) (s : DispatchState) :
      DispatchStep threshold s (dispatchFail threshold w s)
  | healthy (w : Nat) (s : DispatchState) :
      DispatchStep threshold s (dispatchHealthy w s)
  | finish (w : Nat) (s : DispatchState) (h : w ∈ s.inflight) :
      DispatchStep threshold s { s with inflight := s.inflight.erase w }

/-- States reachable from daemon start under a given threshold. -/
def DispatchReachable (threshold : Nat) : DispatchState → Prop :=
  Relation.ReflTransGen (DispatchStep threshold) dispatchInit

/-- Two consecutive failed cycles of workload 0 with threshold 1, neither
recovery having finished. -/
def dispatchCex : DispatchState :=
  dispatchFail 1 0 (dispatchFail 1 0 dispatchInit)

/-- State for the C2-amended witness: workload 0's first recovery in flight. -/
def dispatchWitnessState : DispatchState :=
  { counters := fun _ => 0, inflight := [0] }

/-! ## Recovery Orchestrator (`Engine.performFailover` and related,
internal/failover/engine.go lines 241-432)

The external world is an oracle (`RecoveryWorld`); every platform call, hook
invocation and retry-delay sleep is recorded in an `EngineCall` trace.
`FailoverResult` omits the Go struct's wall-clock fields (`StartTime`,
`EndTime`, `Duration`), which none of the claims concern. -/

/-- One observable call made during a recovery: a hook process, a platform
API call, or the retry-delay sleep. -/
inductive EngineCall where
  | hook (cmd : String)
  | backupContainer (storage dir : String)
  | getBackups (storage : String)
  | stopContainer (id : Nat)
  | restoreContainer (id : Nat) (targetNode storage backupPath : String) (force : Bool)
  | startContainer (id : Nat)
  | getContainer (id : Nat)
  | getNodes
  | sleepRetryDelay
deriving Repr, DecidableEq

/-- Embedding of `config.FailoverConfig` fields used by the engine. -/
structure FailoverConfig where
  autoFailover : Bool
  backupBeforeFailover : Bool
  maxRetries : Nat
  preFailoverHooks : List String
  postFailoverHooks : List String
deriving Repr, DecidableEq

/-- Embedding of `config.BackupConfig` fields used by the engine. -/
structure BackupConfig where
  storage : String
  backupDir : String
deriving Repr, DecidableEq

/-- Outcomes of the three platform calls made by one
`performBackupRestoreFailover` attempt. -/
structure AttemptOutcomes where
  stopResult : Except String Unit
  restoreResult : Except String Unit
  startResult : Except String Unit
deriving Repr

/-- Oracle for the external world consulted during one recovery: hook exit
statuses, backup creation, backup listing, and the per-attempt
stop/restore/start outcomes (indexed by attempt number, starting at 1). -/
structure RecoveryWorld where
  runHook : String → Bool
  backupContainer : Except String String
  getBackups : Except String (List BackupInfo)
  attempt : Nat → AttemptOutcomes

/-- Embedding of `failover.FailoverResult` (engine.go lines 22-31) without the wall-clock
fields. -/
structure FailoverResult where
  containerID : Nat
  sourceNode : String
  targetNode : String
  success : Bool
  error : Option String
deriving Repr, DecidableEq

/-- Embedding of `Engine.executeHooks` (engine.go lines 409-432): run each hook in order,
stopping with an error at the first hook whose process fails; an empty hook
list succeeds immediately. -/
def executeHooks (runHook : String → Bool) :
    List String → Except String Unit × List EngineCall
  | [] => (.ok (), [])
  | h :: rest =>
    if runHook h then
      let r := executeHooks runHook rest
      (r.1, EngineCall.hook h :: r.2)
    else
      (.error ("hook failed: " ++ h), [EngineCall.hook h])

/-- Embedding of `Engine.findLatestBackup` (engine.go lines 382-407): list backups on the
configured backup storage, keep those whose filename starts with
`vzdump-lxc-<id>-`, and return `<storage>:<filename>` of the one with the
lexicographically greatest filename. -/
def findLatestBackup (world : RecoveryWorld) (backupStorage : String)
    (containerID : Nat) : Except String String × List EngineCall :=
  (match world.getBackups with
   | .error e => .error ("failed to get backups: " ++ e)
   | .ok backups =>
     let pat := "vzdump-lxc-" ++ toString containerID ++ "-"
     let latest := backups.foldl
       (fun acc b =>
         if pat.isPrefixOf b.filename then
           match acc with
           | none => some b
           | some lb => if lb.filename < b.filename then some b else some lb
         else acc)
       none
     match latest with
     | none => .error ("no backup found for container " ++ toString containerID)
     | some lb => .ok (lb.storage ++ ":" ++ lb.filename),
   [EngineCall.getBackups backupStorage])

/-- Embedding of `Engine.performBackupRestoreFailover` (engine.go lines 336-380): one
attempt — best-effort stop of the source workload (a stop failure is logged
and tolerated), restore from the backup onto the target node with overwrite
forced, then start the restored workload. -/
def performBackupRestoreFailover (container : ContainerConfig)
    (targetNode backupPath : String) (outcomes : AttemptOutcomes) :
    Except String Unit × List EngineCall :=
  let containerID := container.id
  let storage := if container.storage = "" then "local-lvm" else container.storage
  let stopCall := EngineCall.stopContainer containerID
  let restoreCall := EngineCall.restoreContainer containerID targetNode storage backupPath true
  match outcomes.restoreResult with
  | .error e => (.error ("failed to restore container: " ++ e), [stopCall, restoreCall])
  | .ok _ =>
    match outcomes.startResult with
    | .error e =>
      (.error ("failed to start restored container: " ++ e),
        [stopCall, restoreCall, EngineCall.startContainer containerID])
    | .ok _ => (.ok (), [stopCall, restoreCall, EngineCall.startContainer containerID])

/-- Outcome of the retry loop: the `result.Success` flag, the loop's final
`err` value (`none` when the loop succeeded or never ran), and the calls
made. -/
structure RetryOutcome where
  success : Bool
  error : Option String
  trace : List EngineCall
deriving Repr, DecidableEq

/-- The retry loop of `Engine.performFailover` (engine.go lines 292-315):
`for attempt := 1; attempt <= maxRetries; attempt++`, stopping at the first
successful attempt and sleeping the retry delay after a failed attempt only
when it was not the last one.  `fuel` is the number of remaining iterations
(`maxRetries - attempt + 1` at every call; the loop starts with
`attempt = 1`, `fuel = maxRetries`). -/
def failoverRetryLoop (maxRetries : Nat) (container : ContainerConfig)
    (targetNode backupPath : String) (world : RecoveryWorld) :
    Nat → Nat → RetryOutcome
  | _, 0 => { success := false, error := none, trace := [] }
  | attempt, fuel + 1 =>
    let r := performBackupRestoreFailover container targetNode backupPath (world.attempt attempt)
    match r.1 with
    | .ok _ => { success := true, error := none, trace := r.2 }
    | .error e =>
      if attempt < maxRetries then
        let rest := failoverRetryLoop maxRetries container targetNode backupPath world
          (attempt + 1) fuel
        { success := rest.success, error := rest.error,
          trace := r.2 ++ EngineCall.sleepRetryDelay :: rest.trace }
      else
        { success := false, error := some e, trace := r.2 }

/-- The tail of `Engine.performFailover` after a backup reference was
obtained (engine.go lines 292-333): run the retry loop; if its final error is
set, return a failed result without post-hooks; otherwise run the
post-failover hooks (a post-hook failure is logged but does not invalidate
the result) and return. -/
def performFailoverLoopPhase (fcfg : FailoverConfig) (container : ContainerConfig)
    (world : RecoveryWorld) (base : FailoverResult) (targetNode backupPath : String)
    (callsSoFar : List EngineCall) : FailoverResult × List EngineCall :=
  let r := failoverRetryLoop fcfg.maxRetries container targetNode backupPath world
    1 fcfg.maxRetries
  match r.error with
  | some e =>
    ({ base with
        success := r.success
        error := some ("backup-restore failover failed after " ++
          toString fcfg.maxRetries ++ " attempts: " ++ e) },
      callsSoFar ++ r.trace)
  | none =>
    let post := executeHooks world.runHook fcfg.postFailoverHooks
    ({ base with success := r.success }, callsSoFar ++ r.trace ++ post.2)

/-- Embedding of `Engine.performFailover` (engine.go lines 241-334): pre-hooks first (any
pre-hook failure aborts before any platform call), then create a backup or
locate the latest existing one, then the retry loop and post-hooks. -/
def performFailover (fcfg : FailoverConfig) (bcfg : BackupConfig)
    (container : ContainerConfig) (world : RecoveryWorld)
    (sourceNode targetNode : String) : FailoverResult × List EngineCall :=
  let base : FailoverResult :=
    { containerID := container.id, sourceNode := sourceNode,
      targetNode := targetNode, success := false, error := none }
  let pre := executeHooks world.runHook fcfg.preFailoverHooks
  match pre.1 with
  | .error e =>
    ({ base with error := some ("pre-failover hooks failed: " ++ e) }, pre.2)
  | .ok _ =>
    if fcfg.backupBeforeFailover then
      let backupStorage :=
        if container.backupStorage = "" then bcfg.storage else container.backupStorage
      let bCalls := [EngineCall.backupContainer backupStorage bcfg.backupDir]
      match world.backupContainer with
      | .error e =>
        ({ base with error := some ("backup failed: " ++ e) }, pre.2 ++ bCalls)
      | .ok backupPath =>
        performFailoverLoopPhase fcfg container world base targetNode backupPath
          (pre.2 ++ bCalls)
    else
      let fb := findLatestBackup world bcfg.storage container.id
      match fb.1 with
      | .error e =>
        ({ base with error := some ("failed to find backup: " ++ e) }, pre.2 ++ fb.2)
      | .ok backupPath =>
        performFailoverLoopPhase fcfg container world base targetNode backupPath
          (pre.2 ++ fb.2)

/-- Embedding of `Engine.HandleContainerFailure` (engine.go lines 121-178): the breach
notification handler.  When auto-failover is disabled it logs and returns a
nil error without doing anything else; otherwise it looks up the workload's
configuration, fetches its platform record, selects a target node and runs
`performFailover`, returning `result.Error` when the recovery did not
succeed.  The first component is the returned Go error (`none` = nil). -/
def HandleContainerFailure (fcfg : FailoverConfig) (bcfg : BackupConfig)
    (containers : List ContainerConfig)
    (getContainerResult : Except String ContainerInfo)
    (nodesResult : Except String (List NodeInfo))
    (world : RecoveryWorld) (containerID : Nat) :
    Option String × List EngineCall :=
  if !fcfg.autoFailover then
    (none, [])
  else
    match containers.find? (fun c => c.id == containerID) with
    | none => (some ("container " ++ toString containerID ++ " not found in configuration"), [])
    | some containerConfig =>
      match getContainerResult with
      | .error e =>
        (some ("failed to get container info: " ++ e), [EngineCall.getContainer containerID])
      | .ok info =>
        let selCalls :=
          if containerConfig.failoverNodes.isEmpty then [EngineCall.getContainer containerID]
          else [EngineCall.getContainer containerID, EngineCall.getNodes]
        match selectBestNode containerConfig.failoverNodes nodesResult info.node containerID with
        | .error e => (some ("failed to select target node: " ++ e), selCalls)
        | .ok targetNode =>
          let r := performFailover fcfg bcfg containerConfig world info.node targetNode
          ((if r.1.success then none else r.1.error), selCalls ++ r.2)

/-- Embedding of `Client.RestoreContainerFromBackup` of the bundled platform client
(internal/api/client.go lines 235-241): unconditionally returns a
not-yet-implemented error. -/
def clientRestoreContainerFromBackup (containerID : Nat)
    (targetNode storage backupPath : String) (force : Bool) :
    Except String Unit :=
  .error "restore functionality not yet implemented - requires direct API calls"

/-- Number of stop calls in a trace: each retry attempt makes exactly one. -/
def countStops (tr : List EngineCall) : Nat :=
  tr.countP fun c => match c with
    | EngineCall.stopContainer _ => true
    | _ => false

/-- Number of retry-delay sleeps in a trace. -/
def countSleeps (tr : List EngineCall) : Nat :=
  tr.countP fun c => match c with
    | EngineCall.sleepRetryDelay => true
    | _ => false

/-- Number of restore calls in a trace. -/
def countRestores (tr : List EngineCall) : Nat :=
  tr.countP fun c => match c with
    | EngineCall.restoreContainer _ _ _ _ _ => true
    | _ => false

/-- Number of start calls in a trace. -/
def countStarts (tr : List EngineCall) : Nat :=
  tr.countP fun c => match c with
    | EngineCall.startContainer _ => true
    | _ => false

/-- Whether retry attempt `k` succeeds under the oracle. -/
def attemptSucceeds (container : ContainerConfig) (targetNode backupPath : String)
    (world : RecoveryWorld) (k : Nat) : Bool :=
  match (performBackupRestoreFailover container targetNode backupPath (world.attempt k)).1 with
  | .ok _ => true
  | .error _ => false

/-! ## Demo configurations used by witnesses -/

/-- A failover configuration with auto-failover disabled. -/
def demoDisabledConfig : FailoverConfig :=
  { autoFailover := false, backupBeforeFailover := true, maxRetries := 3,
    preFailoverHooks := [], postFailoverHooks := [] }

/-- A failover configuration whose single pre-hook acts as a guard. -/
def vetoConfig : FailoverConfig :=
  { autoFailover := true, backupBeforeFailover := true, maxRetries := 3,
    preFailoverHooks := ["guard"], postFailoverHooks := [] }

/-- A backup configuration. -/
def demoBackupConfig : BackupConfig := { storage := "backups", backupDir := "dump" }

/-- A world where every hook and platform call succeeds. -/
def demoWorld : RecoveryWorld :=
  { runHook := fun _ => true, backupContainer := .ok "backups:dump/f.tar.zst",
    getBackups := .ok [],
    attempt := fun _ => { stopResult := .ok (), restoreResult := .ok (), startResult := .ok () } }

/-- A world where every hook fails. -/
def vetoWorld : RecoveryWorld :=
  { runHook := fun _ => false, backupContainer := .ok "backups:dump/f.tar.zst",
    getBackups := .ok [],
    attempt := fun _ => { stopResult := .ok (), restoreResult := .ok (), startResult := .ok () } }

/-- A demo workload configuration. -/
def demoContainer : ContainerConfig :=
  { id := 100, name := "web", healthChecks := [], failoverNodes := ["B", "C"],
    backupStorage := "", storage := "" }

/-- The cluster snapshot of the specification's example: `B` offline, `C`
online. -/
def demoNodes : List NodeInfo :=
  [ { name := "B", status := "offline", online := false },
    { name := "C", status := "online", online := true } ]

/-- A world whose first two attempts fail at the restore step and whose third
attempt succeeds. -/
def world12fail : RecoveryWorld :=
  { runHook := fun _ => true, backupContainer := .ok "p", getBackups := .ok [],
    attempt := fun k =>
      if k < 3 then
        { stopResult := .ok (), restoreResult := .error "boom", startResult := .ok () }
      else
        { stopResult := .ok (), restoreResult := .ok (), startResult := .ok () } }

/-- A failover configuration reaching the retry loop with two attempts. -/
def cfg9 : FailoverConfig :=
  { autoFailover := true, backupBeforeFailover := true, maxRetries := 2,
    preFailoverHooks := [], postFailoverHooks := [] }

/-- A world whose restore calls answer exactly as the bundled client does. -/
def world9 : RecoveryWorld :=
  { runHook := fun _ => true, backupContainer := .ok "p", getBackups := .ok [],
    attempt := fun _ =>
      { stopResult := .ok (),
        restoreResult := clientRestoreContainerFromBackup 100 "C" "local-lvm" "p" true,
        startResult := .ok () } }

/-! ## Theorems -/

/-! ## Claims C1 and C3 -/

/-- C1 counterexample: with threshold 1, the first failed cycle crosses the
threshold (counter 0 → 1) and dispatches the callbacks, and the immediately
following failed cycle — with the counter staying at or above the threshold
and no healthy cycle in between — dispatches the callbacks *again*,
contradicting the claim that the notification fires exactly once per
contiguous run of failures. -/
theorem recordFailure_refires_above_threshold :
    (recordFailure 1 initialContainerState).2 = true ∧
    (recordFailure 1 initialContainerState).1.failureCount = 1 ∧
    (recordFailure 1 (recordFailure 1 initialContainerState).1).2 = true ∧
    (recordFailure 1 (recordFailure 1 initialContainerState).1).1.failureCount = 2 :=
  ⟨rfl, rfl, rfl, rfl⟩

/-- C1 amended: the failure callbacks are dispatched on *every* failed cycle
whose incremented consecutive-failure counter is at or above the threshold —
at the crossing and again on each subsequent failed cycle — not exactly once
per contiguous run of failures. -/
theorem recordFailure_fires_iff_counter_reaches_threshold
    (threshold : Nat) (s : ContainerState) :
    (recordFailure threshold s).2 = true ↔ threshold ≤ s.failureCount + 1 := by
  simp [recordFailure]

/-- C3 counterexample: starting from both counters zero, a healthy cycle
followed by a failed cycle leaves `healthyCount = 1` and `failureCount = 1`:
both counters are nonzero simultaneously, contradicting the claimed
invariant. -/
theorem counters_both_nonzero_after_success_then_failure :
    (recordFailure 3 (recordSuccess initialContainerState)).1.failureCount = 1 ∧
    (recordFailure 3 (recordSuccess initialContainerState)).1.healthyCount = 1 :=
  ⟨rfl, rfl⟩

/-- C7: when the fetched platform status is not `"running"`
(part_001 lines 122-129), the check cycle runs no probes, dispatches no
callbacks, and leaves the failure count, success count, probe-result batch
and last-health-check timestamp unchanged; only node, status and last-seen
are updated. -/
theorem checkContainer_not_running_skips_probes
    (threshold : Nat) (container : ContainerConfig) (info : ContainerInfo)
    (runHealthCheck : HealthCheck → CheckResult) (now : Nat)
    (state : ContainerState) (h : info.status ≠ "running") :
    (checkContainer threshold container (.ok info) runHealthCheck now state).2.1 = [] ∧
    (checkContainer threshold container (.ok info) runHealthCheck now state).2.2 = false ∧
    (checkContainer threshold container (.ok info) runHealthCheck now state).1 =
      { state with node := info.node, status := info.status, lastSeen := now } := by
  simp [checkContainer, h]

/-- C7 witness: a concrete stopped workload. -/
theorem checkContainer_not_running_skips_probes_witness :
    ({ id := 100, name := "t", node := "node1", status := "stopped" } : ContainerInfo).status ≠ "running" ∧
    ((checkContainer 3 { id := 100, name := "t", healthChecks := [], failoverNodes := [], backupStorage := "", storage := "" }
        (.ok { id := 100, name := "t", node := "node1", status := "stopped" })
        (fun _ => { kind := "tcp", target := "h", success := true, error := none, duration := 0, timestamp := 0 })
        5 initialContainerState).2.1 = [] ∧
      (checkContainer 3 { id := 100, name := "t", healthChecks := [], failoverNodes := [], backupStorage := "", storage := "" }
        (.ok { id := 100, name := "t", node := "node1", status := "stopped" })
        (fun _ => { kind := "tcp", target := "h", success := true, error := none, duration := 0, timestamp := 0 })
        5 initialContainerState).2.2 = false ∧
      (checkContainer 3 { id := 100, name := "t", healthChecks := [], failoverNodes := [], backupStorage := "", storage := "" }
        (.ok { id := 100, name := "t", node := "node1", status := "stopped" })
        (fun _ => { kind := "tcp", target := "h", success := true, error := none, duration := 0, timestamp := 0 })
        5 initialContainerState).1 =
        { initialContainerState with node := "node1", status := "stopped", lastSeen := 5 }) :=
  ⟨by decide, checkContainer_not_running_skips_probes 3 _ _ _ 5 initialContainerState (by decide)⟩

/-- C8: when fetching the workload's platform status fails
(part_001 lines 106-114), the cycle runs no probes and the state transition
is exactly `recordFailure` — the consecutive-failure counter is incremented
exactly as for a probe failure (and everything else, including the success
count, the probe batch and the timestamps, is untouched). -/
theorem checkContainer_fetch_error_records_failure
    (threshold : Nat) (container : ContainerConfig) (e : String)
    (runHealthCheck : HealthCheck → CheckResult) (now : Nat)
    (state : ContainerState) :
    checkContainer threshold container (.error e) runHealthCheck now state =
      ((recordFailure threshold state).1, [],
        (recordFailure threshold state).2) ∧
    (checkContainer threshold container (.error e) runHealthCheck now state).1.failureCount
      = state.failureCount + 1 ∧
    (checkContainer threshold container (.error e) runHealthCheck now state).1.healthyCount
      = state.healthyCount :=
  ⟨rfl, rfl, rfl⟩

/-- C2 counterexample: with threshold 1, two consecutive failed cycles of
workload 0 — the second breach arriving while the first recovery is still in
flight — reach a state with *two* concurrent in-flight recoveries for the
same workload, contradicting the claim that a second breach never starts a
second concurrent recovery. -/
theorem two_inflight_recoveries_for_same_workload_reachable :
    DispatchReachable 1 dispatchCex ∧ dispatchCex.inflight = [0, 0] :=
  ⟨Relation.ReflTransGen.tail
      (Relation.ReflTransGen.tail Relation.ReflTransGen.refl
        (DispatchStep.fail 0 dispatchInit))
      (DispatchStep.fail 0 (dispatchFail 1 0 dispatchInit)),
    rfl⟩

/-- C2 amended: the breach-notification dispatch is unguarded — a second
breach notification for a workload whose recovery is still in flight starts a
second concurrent recovery for that same workload (leaving at least two
in-flight recoveries for it), and breaches for two different workloads
likewise both start recoveries that are simultaneously in flight. -/
theorem dispatch_unguarded_spawns_concurrent_recoveries
    (threshold w w' : Nat) (s : DispatchState)
    (hin : w ∈ s.inflight) (hc : threshold ≤ s.counters w + 1)
    (hne : w' ≠ w) (hc' : threshold ≤ s.counters w' + 1) :
    2 ≤ (dispatchFail threshold w s).inflight.count w ∧
    w ∈ (dispatchFail threshold w' (dispatchFail threshold w s)).inflight ∧
    w' ∈ (dispatchFail threshold w' (dispatchFail threshold w s)).inflight := by
  have h1 : (dispatchFail threshold w s).inflight = w :: s.inflight := by
    simp [dispatchFail, hc]
  have h2 : (dispatchFail threshold w' (dispatchFail threshold w s)).inflight
      = w' :: w :: s.inflight := by
    simp [dispatchFail, hne, hc, hc']
  refine ⟨?_, ?_, ?_⟩
  · rw [h1, List.count_cons_self]
    have := List.one_le_count_iff.mpr hin
    omega
  · rw [h2]; exact List.mem_cons_of_mem _ (List.mem_cons_self _ _)
  · rw [h2]; exact List.mem_cons_self _ _

/-- C2 amended witness: threshold 1, workload 0 already in flight, second
breach for workload 0 and a breach for workload 1. -/
theorem dispatch_unguarded_spawns_concurrent_recoveries_witness :
    0 ∈ dispatchWitnessState.inflight ∧
    1 ≤ dispatchWitnessState.counters 0 + 1 ∧
    (1 : Nat) ≠ 0 ∧
    1 ≤ dispatchWitnessState.counters 1 + 1 ∧
    (2 ≤ (dispatchFail 1 0 dispatchWitnessState).inflight.count 0 ∧
      0 ∈ (dispatchFail 1 1 (dispatchFail 1 0 dispatchWitnessState)).inflight ∧
      1 ∈ (dispatchFail 1 1 (dispatchFail 1 0 dispatchWitnessState)).inflight) :=
  ⟨by decide, by decide, by decide, by decide,
    dispatch_unguarded_spawns_concurrent_recoveries 1 0 1 dispatchWitnessState
      (by decide) (by decide) (by decide) (by decide)⟩

/-- C3 amended: recording a success always resets the consecutive-failure
count to zero (and increments the success count), but recording a failure
leaves the success count unchanged (it only increments the failure count), so
the two counters *can* be simultaneously nonzero — e.g. after a success
followed by a failure. -/
theorem recordSuccess_resets_failures_recordFailure_keeps_successes
    (threshold : Nat) (s : ContainerState) :
    (recordSuccess s).failureCount = 0 ∧
    (recordSuccess s).healthyCount = s.healthyCount + 1 ∧
    (recordFailure threshold s).1.failureCount = s.failureCount + 1 ∧
    (recordFailure threshold s).1.healthyCount = s.healthyCount := by
  refine ⟨?_, ?_, rfl, rfl⟩ <;>
    · simp only [recordSuccess]
      rcases Nat.eq_zero_or_pos s.failureCount with h | h <;> simp [h]

/-! ## Target Selector lemmas (towards C4) -/

theorem candidateLess_irrefl (a : NodeCandidate) : candidateLess a a = false := by
  simp [candidateLess]

theorem candidateLess_trans {a b c : NodeCandidate}
    (h1 : candidateLess a b = true) (h2 : candidateLess b c = true) :
    candidateLess a c = true := by
  simp only [candidateLess] at h1 h2 ⊢
  cases ha : a.online <;> cases hb : b.online <;> cases hc : c.online <;>
    simp_all <;> omega

theorem candidateLess_not_trans {a b c : NodeCandidate}
    (h1 : candidateLess a b = false) (h2 : candidateLess b c = false) :
    candidateLess a c = false := by
  simp only [candidateLess] at h1 h2 ⊢
  cases ha : a.online <;> cases hb : b.online <;> cases hc : c.online <;>
    simp_all <;> omega

theorem pickMin_mem (c : NodeCandidate) (t : List NodeCandidate) :
    pickMin c t ∈ c :: t := by
  induction t generalizing c with
  | nil => simp [pickMin]
  | cons y t ih =>
    have hstep : pickMin c (y :: t) = pickMin (if candidateLess y c then y else c) t := rfl
    rw [hstep]
    rcases List.mem_cons.mp (ih (if candidateLess y c then y else c)) with h | h
    · rw [h]
      by_cases hyc : candidateLess y c = true
      · simp [hyc]
      · simp [hyc]
    · exact List.mem_cons_of_mem _ (List.mem_cons_of_mem _ h)

theorem pickMin_not_lt (c : NodeCandidate) (t : List NodeCandidate) :
    ∀ x ∈ c :: t, candidateLess x (pickMin c t) = false := by
  induction t generalizing c with
  | nil =>
    intro x hx
    rcases List.mem_cons.mp hx with rfl | h
    · simpa [pickMin] using candidateLess_irrefl x
    · exact absurd h (List.not_mem_nil x)
  | cons y t ih =>
    intro x hx
    have hstep : pickMin c (y :: t) = pickMin (if candidateLess y c then y else c) t := rfl
    rw [hstep]
    rcases List.mem_cons.mp hx with rfl | hx'
    · -- x is the initial accumulator
      by_cases hyc : candidateLess y x = true
      · have h1 : candidateLess y (pickMin (if candidateLess y x then y else x) t) = false :=
          ih (if candidateLess y x then y else x) y (by simp [hyc])
        by_contra hcb
        have hcb' : candidateLess x (pickMin (if candidateLess y x then y else x) t) = true := by
          simpa using hcb
        exact absurd (candidateLess_trans hyc hcb') (by simp [h1])
      · exact ih (if candidateLess y x then y else x) x (by simp [hyc])
    · rcases List.mem_cons.mp hx' with rfl | hx''
      · -- x is the head of the remaining list
        by_cases hyc : candidateLess x c = true
        · exact ih (if candidateLess x c then x else c) x (by simp [hyc])
        · have hyc' : candidateLess x c = false := by simpa using hyc
          have h1 : candidateLess c (pickMin (if candidateLess x c then x else c) t) = false :=
            ih (if candidateLess x c then x else c) c (by simp [hyc])
          exact candidateLess_not_trans hyc' h1
      · exact ih (if candidateLess y c then y else c) x (List.mem_cons_of_mem _ hx'')

theorem pickMin_online_of_exists (c : NodeCandidate) (t : List NodeCandidate)
    (x : NodeCandidate) (hx : x ∈ c :: t) (hon : x.online = true) :
    (pickMin c t).online = true := by
  have h := pickMin_not_lt c t x hx
  by_contra hb
  have hb' : (pickMin c t).online = false := by simpa using hb
  simp [candidateLess, hon, hb'] at h

theorem buildCandidates_priority_ge (cur : String) (lookup : String → Option NodeInfo)
    (l : List String) : ∀ (i : Nat),
    ∀ c ∈ buildCandidates cur lookup (List.enumFrom i l), i ≤ c.priority := by
  induction l with
  | nil => intro i c hc; simp [List.enumFrom, buildCandidates] at hc
  | cons x xs ih =>
    intro i c hc
    simp only [List.enumFrom, buildCandidates] at hc
    by_cases hx : x = cur
    · rw [if_pos hx] at hc
      exact Nat.le_of_succ_le (ih (i + 1) c hc)
    · rw [if_neg hx] at hc
      cases hl : lookup x with
      | none =>
        rw [hl] at hc
        exact Nat.le_of_succ_le (ih (i + 1) c hc)
      | some nd =>
        rw [hl] at hc
        rcases List.mem_cons.mp hc with rfl | hc'
        · exact Nat.le_refl i
        · exact Nat.le_of_succ_le (ih (i + 1) c hc')

theorem buildCandidates_pairwise (cur : String) (lookup : String → Option NodeInfo)
    (l : List String) : ∀ (i : Nat),
    List.Pairwise (fun a b => a.priority < b.priority)
      (buildCandidates cur lookup (List.enumFrom i l)) := by
  induction l with
  | nil => intro i; simp [List.enumFrom, buildCandidates]
  | cons x xs ih =>
    intro i
    simp only [List.enumFrom, buildCandidates]
    by_cases hx : x = cur
    · rw [if_pos hx]; exact ih (i + 1)
    · rw [if_neg hx]
      cases hl : lookup x with
      | none => exact ih (i + 1)
      | some nd =>
        refine List.pairwise_cons.mpr ⟨?_, ih (i + 1)⟩
        intro c hc
        exact Nat.lt_of_succ_le (buildCandidates_priority_ge cur lookup xs (i + 1) c hc)

theorem buildCandidates_online_names (cur : String) (lookup : String → Option NodeInfo)
    (l : List String) : ∀ (i : Nat),
    ((buildCandidates cur lookup (List.enumFrom i l)).filter (fun c => c.online)).map
        (fun c => c.name)
      = l.filter (fun x => decide (x ≠ cur) &&
          (match lookup x with | none => false | some nd => nd.online)) := by
  induction l with
  | nil => intro i; simp [List.enumFrom, buildCandidates]
  | cons x xs ih =>
    intro i
    simp only [List.enumFrom, buildCandidates, List.filter_cons]
    by_cases hx : x = cur
    · rw [if_pos hx]
      rw [ih (i + 1)]
      simp [hx]
    · rw [if_neg hx]
      cases hl : lookup x with
      | none => simp [hx, ih (i + 1)]
      | some nd =>
        cases hon : nd.online with
        | false => simp [List.filter_cons, hon, hx, ih (i + 1)]
        | true => simp [List.filter_cons, hon, hx, ih (i + 1)]

theorem bestCandidate_of_filter_nil (cs : List NodeCandidate)
    (hfil : cs.filter (fun c => c.online) = []) :
    bestCandidate cs = none ∨
      ∃ b, bestCandidate cs = some b ∧ b.online = false := by
  cases cs with
  | nil => exact Or.inl rfl
  | cons c t =>
    refine Or.inr ⟨pickMin c t, rfl, ?_⟩
    by_contra hon
    have hon' : (pickMin c t).online = true := by simpa using hon
    have hmf : pickMin c t ∈ (c :: t).filter (fun c => c.online) :=
      List.mem_filter.mpr ⟨pickMin_mem c t, by simpa using hon'⟩
    rw [hfil] at hmf
    exact absurd hmf (List.not_mem_nil _)

theorem bestCandidate_of_filter_cons (cs : List NodeCandidate)
    (hpw : List.Pairwise (fun a b => a.priority < b.priority) cs)
    (o : NodeCandidate) (orest : List NodeCandidate)
    (hf : cs.filter (fun c => c.online) = o :: orest) :
    bestCandidate cs = some o ∧ o.online = true := by
  have h1 : o ∈ cs.filter (fun c => c.online) := by
    rw [hf]; exact List.mem_cons_self o orest
  have homem : o ∈ cs := (List.mem_filter.mp h1).1
  have hoon : o.online = true := by simpa using (List.mem_filter.mp h1).2
  refine ⟨?_, hoon⟩
  cases cs with
  | nil => exact absurd homem (List.not_mem_nil o)
  | cons c t =>
    have homem' : o ∈ c :: t := homem
    have hbon : (pickMin c t).online = true :=
      pickMin_online_of_exists c t o homem' hoon
    have hbfil : pickMin c t ∈ (c :: t).filter (fun c => c.online) :=
      List.mem_filter.mpr ⟨pickMin_mem c t, by simpa using hbon⟩
    rw [hf] at hbfil
    rcases List.mem_cons.mp hbfil with h | h
    · exact congrArg some h
    · exfalso
      have hpwf : List.Pairwise (fun a b => a.priority < b.priority)
          ((c :: t).filter (fun c => c.online)) :=
        hpw.sublist (List.filter_sublist (c :: t))
      rw [hf] at hpwf
      have hlt : o.priority < (pickMin c t).priority :=
        (List.pairwise_cons.mp hpwf).1 _ h
      have hless : candidateLess o (pickMin c t) = true := by
        simp [candidateLess, hoon, hbon, hlt]
      have hmin := pickMin_not_lt c t o homem'
      exact absurd hless (by simp [hmin])

/-- C4: for every non-empty ordered candidate list, current host and liveness
snapshot, target selection succeeds with exactly the first configured
candidate that is not the current host and is live under the snapshot
(liveness-descending then preference-rank-ascending order puts live hosts
first and earlier-configured hosts first among the live ones, so the sorted
minimum is that first live eligible candidate), and fails with a
no-eligible-target error exactly when no candidate remains after removing the
current host or every remaining candidate is non-live.  In particular the
selection never returns the current host and never returns a non-live host. -/
theorem selectBestNode_spec (failoverNodes : List String) (nodes : List NodeInfo)
    (currentNode : String) (cid : Nat) (hne : failoverNodes ≠ []) :
    (∀ n, selectBestNode failoverNodes (.ok nodes) currentNode cid = Except.ok n ↔
        (eligibleLiveNodes failoverNodes nodes currentNode).head? = some n) ∧
    ((∃ e, selectBestNode failoverNodes (.ok nodes) currentNode cid = Except.error e) ↔
        eligibleLiveNodes failoverNodes nodes currentNode = []) := by
  have hempty : failoverNodes.isEmpty = false := by
    cases failoverNodes with
    | nil => exact absurd rfl hne
    | cons a l => rfl
  have hnames :
      ((buildCandidates currentNode (nodeStatusMap nodes)
            (List.enumFrom 0 failoverNodes)).filter (fun c => c.online)).map
          (fun c => c.name)
        = eligibleLiveNodes failoverNodes nodes currentNode := by
    rw [buildCandidates_online_names currentNode (nodeStatusMap nodes) failoverNodes 0]
    unfold eligibleLiveNodes
    congr 1
  have hpw := buildCandidates_pairwise currentNode (nodeStatusMap nodes) failoverNodes 0
  rcases hE : eligibleLiveNodes failoverNodes nodes currentNode with _ | ⟨n0, nrest⟩
  · rw [hE] at hnames
    have hfil := List.map_eq_nil_iff.mp hnames
    have herr : ∃ e, selectBestNode failoverNodes (.ok nodes) currentNode cid
        = Except.error e := by
      rcases bestCandidate_of_filter_nil _ hfil with hb | ⟨b, hb, hbon⟩
      · exact ⟨"no available failover nodes for container " ++ toString cid,
          by simp [selectBestNode, hempty, hb]⟩
      · exact ⟨"no online failover nodes available for container " ++ toString cid,
          by simp [selectBestNode, hempty, hb, hbon]⟩
    obtain ⟨e, he⟩ := herr
    constructor
    · intro n
      constructor
      · intro h
        rw [h] at he
        simp at he
      · intro h
        simp at h
    · exact ⟨fun _ => rfl, fun _ => ⟨e, he⟩⟩
  · rw [hE] at hnames
    obtain ⟨o, orest, hf⟩ :
        ∃ o orest, (buildCandidates currentNode (nodeStatusMap nodes)
            (List.enumFrom 0 failoverNodes)).filter (fun c => c.online)
          = o :: orest := by
      cases hfc : (buildCandidates currentNode (nodeStatusMap nodes)
          (List.enumFrom 0 failoverNodes)).filter (fun c => c.online) with
      | nil => rw [hfc] at hnames; simp at hnames
      | cons o orest => exact ⟨o, orest, rfl⟩
    have hbc := bestCandidate_of_filter_cons _ hpw o orest hf
    have hon0 : o.name = n0 := by
      rw [hf] at hnames
      simp at hnames
      exact hnames.1
    have hok : selectBestNode failoverNodes (.ok nodes) currentNode cid
        = Except.ok n0 := by
      simp [selectBestNode, hempty, hbc.1, hbc.2, hon0]
    constructor
    · intro n
      rw [hok]
      constructor
      · intro h
        simp at h
        simp [h]
      · intro h
        simp at h
        simp [h]
    · constructor
      · rintro ⟨e, he⟩
        rw [hok] at he
        simp at he
      · intro h
        simp at h

/-! ## Claims C4, C6, C10 -/

/-- C4 witness: candidates `[B, C]`, current host `A`, liveness
`{B: false, C: true}` selects `C`; candidates `[B]` with `B` non-live fail
with a no-eligible-target error. -/
theorem selectBestNode_spec_witness :
    (["B", "C"] : List String) ≠ [] ∧
    selectBestNode ["B", "C"] (.ok demoNodes) "A" 100 = Except.ok "C" ∧
    selectBestNode ["B"] (.ok demoNodes) "A" 101
      = Except.error "no online failover nodes available for container 101" :=
  ⟨by decide,
    ((selectBestNode_spec ["B", "C"] demoNodes "A" 100 (by decide)).1 "C").mpr rfl,
    rfl⟩

theorem executeHooks_trace_hooks (runHook : String → Bool) :
    ∀ (hooks : List String), ∀ c ∈ (executeHooks runHook hooks).2,
      ∃ cmd, c = EngineCall.hook cmd := by
  intro hooks
  induction hooks with
  | nil => intro c hc; simp [executeHooks] at hc
  | cons h rest ih =>
    intro c hc
    by_cases hr : runHook h = true
    · simp only [executeHooks, hr, if_true] at hc
      rcases List.mem_cons.mp hc with rfl | hc'
      · exact ⟨h, rfl⟩
      · exact ih c hc'
    · simp only [executeHooks, hr, if_false, Bool.false_eq_true] at hc
      rcases List.mem_cons.mp hc with rfl | hc'
      · exact ⟨h, rfl⟩
      · exact absurd hc' (List.not_mem_nil c)

/-- C6: if the pre-failover hooks fail, `performFailover` returns a failed
result (success flag false, error set) whose trace contains only hook
invocations — no backup creation or lookup, no stop, no restore and no start
was made. -/
theorem performFailover_prehook_failure
    (fcfg : FailoverConfig) (bcfg : BackupConfig) (container : ContainerConfig)
    (world : RecoveryWorld) (sourceNode targetNode : String) (e : String)
    (hpre : (executeHooks world.runHook fcfg.preFailoverHooks).1 = Except.error e) :
    (performFailover fcfg bcfg container world sourceNode targetNode).1.success = false ∧
    (performFailover fcfg bcfg container world sourceNode targetNode).1.error
      = some ("pre-failover hooks failed: " ++ e) ∧
    (performFailover fcfg bcfg container world sourceNode targetNode).2
      = (executeHooks world.runHook fcfg.preFailoverHooks).2 ∧
    ∀ c ∈ (performFailover fcfg bcfg container world sourceNode targetNode).2,
      ∃ cmd, c = EngineCall.hook cmd := by
  have hEq : performFailover fcfg bcfg container world sourceNode targetNode
      = ({ containerID := container.id, sourceNode := sourceNode,
            targetNode := targetNode, success := false,
            error := some ("pre-failover hooks failed: " ++ e) },
          (executeHooks world.runHook fcfg.preFailoverHooks).2) := by
    simp only [performFailover, hpre]
  rw [hEq]
  exact ⟨rfl, rfl, rfl, executeHooks_trace_hooks world.runHook fcfg.preFailoverHooks⟩

/-- C6 witness: a single failing guard hook aborts the recovery with no
platform calls. -/
theorem performFailover_prehook_failure_witness :
    (executeHooks vetoWorld.runHook vetoConfig.preFailoverHooks).1
      = Except.error "hook failed: guard" ∧
    (performFailover vetoConfig demoBackupConfig demoContainer vetoWorld "A" "C").1.success
      = false ∧
    (performFailover vetoConfig demoBackupConfig demoContainer vetoWorld "A" "C").1.error
      = some "pre-failover hooks failed: hook failed: guard" ∧
    (performFailover vetoConfig demoBackupConfig demoContainer vetoWorld "A" "C").2
      = [EngineCall.hook "guard"] :=
  ⟨rfl,
    (performFailover_prehook_failure vetoConfig demoBackupConfig demoContainer vetoWorld
      "A" "C" "hook failed: guard" rfl).1,
    (performFailover_prehook_failure vetoConfig demoBackupConfig demoContainer vetoWorld
      "A" "C" "hook failed: guard" rfl).2.1,
    (performFailover_prehook_failure vetoConfig demoBackupConfig demoContainer vetoWorld
      "A" "C" "hook failed: guard" rfl).2.2.1⟩

/-- C10: with the auto-failover flag disabled, the breach handler returns a
nil error and makes no platform call and no hook invocation for every
workload id. -/
theorem HandleContainerFailure_auto_disabled
    (fcfg : FailoverConfig) (bcfg : BackupConfig) (containers : List ContainerConfig)
    (getContainerResult : Except String ContainerInfo)
    (nodesResult : Except String (List NodeInfo)) (world : RecoveryWorld)
    (containerID : Nat) (h : fcfg.autoFailover = false) :
    HandleContainerFailure fcfg bcfg containers getContainerResult nodesResult world
      containerID = (none, []) := by
  simp [HandleContainerFailure, h]

/-- C10 witness: a concrete disabled configuration. -/
theorem HandleContainerFailure_auto_disabled_witness :
    demoDisabledConfig.autoFailover = false ∧
    HandleContainerFailure demoDisabledConfig demoBackupConfig [demoContainer]
      (.ok { id := 100, name := "web", node := "A", status := "stopped" })
      (.ok demoNodes) demoWorld 100 = (none, []) :=
  ⟨rfl,
    HandleContainerFailure_auto_disabled demoDisabledConfig demoBackupConfig [demoContainer]
      (.ok { id := 100, name := "web", node := "A", status := "stopped" })
      (.ok demoNodes) demoWorld 100 rfl⟩

/-! ## Retry-loop lemmas (towards C5 and C9) -/

theorem countStops_append (l1 l2 : List EngineCall) :
    countStops (l1 ++ l2) = countStops l1 + countStops l2 := by
  simp [countStops, List.countP_append]

theorem countSleeps_append (l1 l2 : List EngineCall) :
    countSleeps (l1 ++ l2) = countSleeps l1 + countSleeps l2 := by
  simp [countSleeps, List.countP_append]

theorem countStops_sleep_cons (l : List EngineCall) :
    countStops (EngineCall.sleepRetryDelay :: l) = countStops l := by
  simp [countStops, List.countP_cons]

theorem countSleeps_sleep_cons (l : List EngineCall) :
    countSleeps (EngineCall.sleepRetryDelay :: l) = countSleeps l + 1 := by
  simp [countSleeps, List.countP_cons]

theorem performBackupRestore_trace_counts (container : ContainerConfig)
    (targetNode backupPath : String) (oc : AttemptOutcomes) :
    countStops (performBackupRestoreFailover container targetNode backupPath oc).2 = 1 ∧
    countSleeps (performBackupRestoreFailover container targetNode backupPath oc).2 = 0 := by
  unfold performBackupRestoreFailover
  cases hr : oc.restoreResult with
  | error e => exact ⟨rfl, rfl⟩
  | ok u =>
    cases hs : oc.startResult with
    | error e => exact ⟨rfl, rfl⟩
    | ok v => exact ⟨rfl, rfl⟩

/-- General specification of the retry loop, for any window starting at
`attempt` with `fuel = maxRetries - attempt + 1` remaining iterations. -/
theorem failoverRetryLoop_spec (maxRetries : Nat) (container : ContainerConfig)
    (targetNode backupPath : String) (world : RecoveryWorld) :
    ∀ (fuel attempt : Nat), attempt + fuel = maxRetries + 1 →
      countStops (failoverRetryLoop maxRetries container targetNode backupPath world
        attempt fuel).trace ≤ fuel ∧
      (∀ k, attempt ≤ k → k ≤ maxRetries →
        attemptSucceeds container targetNode backupPath world k = true →
        (∀ j, attempt ≤ j → j < k →
          attemptSucceeds container targetNode backupPath world j = false) →
        (failoverRetryLoop maxRetries container targetNode backupPath world
          attempt fuel).success = true ∧
        countStops (failoverRetryLoop maxRetries container targetNode backupPath world
          attempt fuel).trace = k + 1 - attempt ∧
        countSleeps (failoverRetryLoop maxRetries container targetNode backupPath world
          attempt fuel).trace = k - attempt) ∧
      ((∀ k, attempt ≤ k → k ≤ maxRetries →
          attemptSucceeds container targetNode backupPath world k = false) →
        (failoverRetryLoop maxRetries container targetNode backupPath world
          attempt fuel).success = false ∧
        countStops (failoverRetryLoop maxRetries container targetNode backupPath world
          attempt fuel).trace = maxRetries + 1 - attempt ∧
        countSleeps (failoverRetryLoop maxRetries container targetNode backupPath world
          attempt fuel).trace = maxRetries - attempt ∧
        (1 ≤ fuel →
          (failoverRetryLoop maxRetries container targetNode backupPath world
            attempt fuel).error.isSome = true)) := by
  intro fuel
  induction fuel with
  | zero =>
    intro attempt hsum
    refine ⟨?_, ?_, ?_⟩
    · simp [failoverRetryLoop, countStops]
    · intro k hk1 hk2 _ _
      exact absurd hk2 (by omega)
    · intro _
      refine ⟨rfl, ?_, ?_, ?_⟩
      · show countStops ([] : List EngineCall) = maxRetries + 1 - attempt
        simp [countStops]
        omega
      · show countSleeps ([] : List EngineCall) = maxRetries - attempt
        simp [countSleeps]
        omega
      · intro h0
        exact absurd h0 (by omega)
  | succ fuel ih =>
    intro attempt hsum
    have hattle : attempt ≤ maxRetries := by omega
    obtain ⟨hstop1, hsleep0⟩ :=
      performBackupRestore_trace_counts container targetNode backupPath (world.attempt attempt)
    cases hA : (performBackupRestoreFailover container targetNode backupPath
        (world.attempt attempt)).1 with
    | ok u =>
      have hsucc : attemptSucceeds container targetNode backupPath world attempt = true := by
        simp [attemptSucceeds, hA]
      have hres : failoverRetryLoop maxRetries container targetNode backupPath world
          attempt (fuel + 1)
          = { success := true, error := none,
              trace := (performBackupRestoreFailover container targetNode backupPath
                (world.attempt attempt)).2 } := by
        simp only [failoverRetryLoop, hA]
      have htr : (failoverRetryLoop maxRetries container targetNode backupPath world
          attempt (fuel + 1)).trace
          = (performBackupRestoreFailover container targetNode backupPath
            (world.attempt attempt)).2 := by rw [hres]
      refine ⟨?_, ?_, ?_⟩
      · rw [htr, hstop1]; omega
      · intro k hk1 hk2 hks hfirst
        have hke : k = attempt := by
          by_contra hne
          have hlt : attempt < k := by omega
          have hcontra := hfirst attempt (Nat.le_refl attempt) hlt
          rw [hsucc] at hcontra
          exact absurd hcontra (by simp)
        subst hke
        refine ⟨by rw [hres], ?_, ?_⟩
        · rw [htr, hstop1]; omega
        · rw [htr, hsleep0]; omega
      · intro hall
        have hcontra := hall attempt (Nat.le_refl attempt) hattle
        rw [hsucc] at hcontra
        exact absurd hcontra (by simp)
    | error e =>
      have hfail : attemptSucceeds container targetNode backupPath world attempt = false := by
        simp [attemptSucceeds, hA]
      by_cases hlt : attempt < maxRetries
      · have hres : failoverRetryLoop maxRetries container targetNode backupPath world
            attempt (fuel + 1)
            = { success := (failoverRetryLoop maxRetries container targetNode backupPath
                  world (attempt + 1) fuel).success,
                error := (failoverRetryLoop maxRetries container targetNode backupPath
                  world (attempt + 1) fuel).error,
                trace := (performBackupRestoreFailover container targetNode backupPath
                    (world.attempt attempt)).2
                  ++ EngineCall.sleepRetryDelay ::
                    (failoverRetryLoop maxRetries container targetNode backupPath
                      world (attempt + 1) fuel).trace } := by
          simp only [failoverRetryLoop, hA, if_pos hlt]
        have htr : (failoverRetryLoop maxRetries container targetNode backupPath world
            attempt (fuel + 1)).trace
            = (performBackupRestoreFailover container targetNode backupPath
                (world.attempt attempt)).2
              ++ EngineCall.sleepRetryDelay ::
                (failoverRetryLoop maxRetries container targetNode backupPath
                  world (attempt + 1) fuel).trace := by rw [hres]
        have hsucceq : (failoverRetryLoop maxRetries container targetNode backupPath world
            attempt (fuel + 1)).success
            = (failoverRetryLoop maxRetries container targetNode backupPath world
              (attempt + 1) fuel).success := by rw [hres]
        have herreq : (failoverRetryLoop maxRetries container targetNode backupPath world
            attempt (fuel + 1)).error
            = (failoverRetryLoop maxRetries container targetNode backupPath world
              (attempt + 1) fuel).error := by rw [hres]
        have hstops : countStops (failoverRetryLoop maxRetries container targetNode backupPath
            world attempt (fuel + 1)).trace
            = 1 + countStops (failoverRetryLoop maxRetries container targetNode backupPath
              world (attempt + 1) fuel).trace := by
          rw [htr, countStops_append, countStops_sleep_cons, hstop1]
        have hsleeps : countSleeps (failoverRetryLoop maxRetries container targetNode backupPath
            world attempt (fuel + 1)).trace
            = countSleeps (failoverRetryLoop maxRetries container targetNode backupPath
              world (attempt + 1) fuel).trace + 1 := by
          rw [htr, countSleeps_append, countSleeps_sleep_cons, hsleep0]
          omega
        obtain ⟨ihbound, ihfirst, ihall⟩ := ih (attempt + 1) (by omega)
        refine ⟨?_, ?_, ?_⟩
        · rw [hstops]; omega
        · intro k hk1 hk2 hks hfirst
          have hkgt : attempt < k := by
            by_contra hne
            have hke : k = attempt := by omega
            rw [hke, hfail] at hks
            exact absurd hks (by simp)
          obtain ⟨hs1, hs2, hs3⟩ := ihfirst k (by omega) hk2 hks
            (fun j hj1 hj2 => hfirst j (by omega) hj2)
          refine ⟨by rw [hsucceq, hs1], ?_, ?_⟩
          · rw [hstops, hs2]; omega
          · rw [hsleeps, hs3]; omega
        · intro hall
          obtain ⟨hs1, hs2, hs3, hs4⟩ := ihall (fun k hk1 hk2 => hall k (by omega) hk2)
          refine ⟨by rw [hsucceq, hs1], ?_, ?_, ?_⟩
          · rw [hstops, hs2]; omega
          · rw [hsleeps, hs3]; omega
          · intro _
            rw [herreq]
            exact hs4 (by omega)
      · have heq : attempt = maxRetries := by omega
        have hres : failoverRetryLoop maxRetries container targetNode backupPath world
            attempt (fuel + 1)
            = { success := false, error := some e,
                trace := (performBackupRestoreFailover container targetNode backupPath
                  (world.attempt attempt)).2 } := by
          simp only [failoverRetryLoop, hA, if_neg hlt]
        have htr : (failoverRetryLoop maxRetries container targetNode backupPath world
            attempt (fuel + 1)).trace
            = (performBackupRestoreFailover container targetNode backupPath
              (world.attempt attempt)).2 := by rw [hres]
        refine ⟨?_, ?_, ?_⟩
        · rw [htr, hstop1]; omega
        · intro k hk1 hk2 hks hfirst
          have hke : k = attempt := by omega
          rw [hke, hfail] at hks
          exact absurd hks (by simp)
        · intro _
          refine ⟨by rw [hres], ?_, ?_, fun _ => by rw [hres]; rfl⟩
          · rw [htr, hstop1]; omega
          · rw [htr, hsleep0]; omega

/-- C5: with `max_retries = n ≥ 1`, the retry loop makes at most `n`
stop/restore/start attempts; if the first successful attempt is attempt `k`,
it stops there with a successful outcome after exactly `k` attempts and
exactly `k - 1` retry-delay sleeps (one between each pair of consecutive
attempts, none after the final one); if every attempt fails, it makes exactly
`n` attempts and `n - 1` sleeps and fails.  Attempts are counted by their
stop calls (each attempt makes exactly one). -/
theorem failoverRetryLoop_retry_policy (maxRetries : Nat) (container : ContainerConfig)
    (targetNode backupPath : String) (world : RecoveryWorld)
    (hmax : 1 ≤ maxRetries) :
    countStops (failoverRetryLoop maxRetries container targetNode backupPath world
      1 maxRetries).trace ≤ maxRetries ∧
    (∀ k, 1 ≤ k → k ≤ maxRetries →
      attemptSucceeds container targetNode backupPath world k = true →
      (∀ j, 1 ≤ j → j < k →
        attemptSucceeds container targetNode backupPath world j = false) →
      (failoverRetryLoop maxRetries container targetNode backupPath world
        1 maxRetries).success = true ∧
      countStops (failoverRetryLoop maxRetries container targetNode backupPath world
        1 maxRetries).trace = k ∧
      countSleeps (failoverRetryLoop maxRetries container targetNode backupPath world
        1 maxRetries).trace = k - 1) ∧
    ((∀ k, 1 ≤ k → k ≤ maxRetries →
        attemptSucceeds container targetNode backupPath world k = false) →
      (failoverRetryLoop maxRetries container targetNode backupPath world
        1 maxRetries).success = false ∧
      countStops (failoverRetryLoop maxRetries container targetNode backupPath world
        1 maxRetries).trace = maxRetries ∧
      countSleeps (failoverRetryLoop maxRetries container targetNode backupPath world
        1 maxRetries).trace = maxRetries - 1) := by
  obtain ⟨h1, h2, h3⟩ := failoverRetryLoop_spec maxRetries container targetNode backupPath
    world maxRetries 1 (by omega)
  refine ⟨h1, ?_, ?_⟩
  · intro k hk1 hk2 hks hfirst
    obtain ⟨a, b, c⟩ := h2 k hk1 hk2 hks hfirst
    exact ⟨a, by omega, by omega⟩
  · intro hall
    obtain ⟨a, b, c, d⟩ := h3 hall
    exact ⟨a, by omega, by omega⟩

/-- C5 witness: `max_retries = 3`, attempts 1 and 2 fail, attempt 3 succeeds:
successful outcome, three attempts, exactly two sleeps. -/
theorem failoverRetryLoop_retry_policy_witness :
    (1 : Nat) ≤ 3 ∧
    (failoverRetryLoop 3 demoContainer "C" "p" world12fail 1 3).success = true ∧
    countStops (failoverRetryLoop 3 demoContainer "C" "p" world12fail 1 3).trace = 3 ∧
    countSleeps (failoverRetryLoop 3 demoContainer "C" "p" world12fail 1 3).trace = 2 := by
  have h := (failoverRetryLoop_retry_policy 3 demoContainer "C" "p" world12fail
    (by omega)).2.1 3 (by omega) (by omega) rfl
    (by intro j hj1 hj2; interval_cases j <;> rfl)
  exact ⟨by omega, h.1, h.2.1, h.2.2⟩

/-! ## Towards C9: the bundled client's restore always fails -/

theorem countRestores_append (l1 l2 : List EngineCall) :
    countRestores (l1 ++ l2) = countRestores l1 + countRestores l2 := by
  simp [countRestores, List.countP_append]

theorem countStarts_append (l1 l2 : List EngineCall) :
    countStarts (l1 ++ l2) = countStarts l1 + countStarts l2 := by
  simp [countStarts, List.countP_append]

theorem countRestores_sleep_cons (l : List EngineCall) :
    countRestores (EngineCall.sleepRetryDelay :: l) = countRestores l := by
  simp [countRestores, List.countP_cons]

theorem countStarts_sleep_cons (l : List EngineCall) :
    countStarts (EngineCall.sleepRetryDelay :: l) = countStarts l := by
  simp [countStarts, List.countP_cons]

theorem performBackupRestore_restore_error (container : ContainerConfig)
    (targetNode backupPath : String) (oc : AttemptOutcomes) (e : String)
    (h : oc.restoreResult = Except.error e) :
    (performBackupRestoreFailover container targetNode backupPath oc).1
      = Except.error ("failed to restore container: " ++ e) ∧
    countRestores (performBackupRestoreFailover container targetNode backupPath oc).2 = 1 ∧
    countStarts (performBackupRestoreFailover container targetNode backupPath oc).2 = 0 := by
  have h2 : performBackupRestoreFailover container targetNode backupPath oc
      = (Except.error ("failed to restore container: " ++ e),
          [EngineCall.stopContainer container.id,
            EngineCall.restoreContainer container.id targetNode
              (if container.storage = "" then "local-lvm" else container.storage)
              backupPath true]) := by
    simp only [performBackupRestoreFailover, h]
  rw [h2]
  exact ⟨rfl, rfl, rfl⟩

theorem attemptSucceeds_eq_false_of_restore_error (container : ContainerConfig)
    (targetNode backupPath : String) (world : RecoveryWorld) (k : Nat) (e : String)
    (h : (world.attempt k).restoreResult = Except.error e) :
    attemptSucceeds container targetNode backupPath world k = false := by
  have h1 := (performBackupRestore_restore_error container targetNode backupPath
    (world.attempt k) e h).1
  simp [attemptSucceeds, h1]

/-- When every attempt fails at the restore step, every attempt in the loop
trace consists of a stop call followed by a restore call: the trace contains
as many restore calls as stop calls and no start call at all. -/
theorem failoverRetryLoop_restore_error (maxRetries : Nat) (container : ContainerConfig)
    (targetNode backupPath : String) (world : RecoveryWorld)
    (hre : ∀ k, ∃ e, (world.attempt k).restoreResult = Except.error e) :
    ∀ (fuel attempt : Nat),
      countRestores (failoverRetryLoop maxRetries container targetNode backupPath world
        attempt fuel).trace
        = countStops (failoverRetryLoop maxRetries container targetNode backupPath world
          attempt fuel).trace ∧
      countStarts (failoverRetryLoop maxRetries container targetNode backupPath world
        attempt fuel).trace = 0 := by
  intro fuel
  induction fuel with
  | zero => intro attempt; exact ⟨rfl, rfl⟩
  | succ fuel ih =>
    intro attempt
    obtain ⟨e, he⟩ := hre attempt
    obtain ⟨hferr, hr1, hst0⟩ := performBackupRestore_restore_error container targetNode
      backupPath (world.attempt attempt) e he
    obtain ⟨hstop1, _⟩ := performBackupRestore_trace_counts container targetNode backupPath
      (world.attempt attempt)
    by_cases hlt : attempt < maxRetries
    · have hres : failoverRetryLoop maxRetries container targetNode backupPath world
          attempt (fuel + 1)
          = { success := (failoverRetryLoop maxRetries container targetNode backupPath
                world (attempt + 1) fuel).success,
              error := (failoverRetryLoop maxRetries container targetNode backupPath
                world (attempt + 1) fuel).error,
              trace := (performBackupRestoreFailover container targetNode backupPath
                  (world.attempt attempt)).2
                ++ EngineCall.sleepRetryDelay ::
                  (failoverRetryLoop maxRetries container targetNode backupPath
                    world (attempt + 1) fuel).trace } := by
        simp only [failoverRetryLoop, hferr, if_pos hlt]
      have htr : (failoverRetryLoop maxRetries container targetNode backupPath world
          attempt (fuel + 1)).trace
          = (performBackupRestoreFailover container targetNode backupPath
              (world.attempt attempt)).2
            ++ EngineCall.sleepRetryDelay ::
              (failoverRetryLoop maxRetries container targetNode backupPath
                world (attempt + 1) fuel).trace := by rw [hres]
      obtain ⟨ih1, ih2⟩ := ih (attempt + 1)
      constructor
      · rw [htr, countRestores_append, countRestores_sleep_cons, countStops_append,
          countStops_sleep_cons, hr1, hstop1, ih1]
      · rw [htr, countStarts_append, countStarts_sleep_cons, hst0, ih2]
    · have hres : failoverRetryLoop maxRetries container targetNode backupPath world
          attempt (fuel + 1)
          = { success := false, error := some ("failed to restore container: " ++ e),
              trace := (performBackupRestoreFailover container targetNode backupPath
                (world.attempt attempt)).2 } := by
        simp only [failoverRetryLoop, hferr, if_neg hlt]
      have htr : (failoverRetryLoop maxRetries container targetNode backupPath world
          attempt (fuel + 1)).trace
          = (performBackupRestoreFailover container targetNode backupPath
            (world.attempt attempt)).2 := by rw [hres]
      exact ⟨by rw [htr, hr1, hstop1], by rw [htr, hst0]⟩

theorem countRestores_executeHooks (runHook : String → Bool) (hooks : List String) :
    countRestores (executeHooks runHook hooks).2 = 0 := by
  simp only [countRestores]
  rw [List.countP_eq_zero]
  intro a ha
  obtain ⟨cmd, rfl⟩ := executeHooks_trace_hooks runHook hooks a ha
  simp

theorem countStarts_executeHooks (runHook : String → Bool) (hooks : List String) :
    countStarts (executeHooks runHook hooks).2 = 0 := by
  simp only [countStarts]
  rw [List.countP_eq_zero]
  intro a ha
  obtain ⟨cmd, rfl⟩ := executeHooks_trace_hooks runHook hooks a ha
  simp

/-- C9: with the repository's bundled platform client — whose restore
operation unconditionally returns a not-yet-implemented error — every
recovery that reaches the retry loop (pre-hooks succeed, the backup phase
yields a reference) has every attempt fail at the restore step: it consumes
all `max_retries` attempts (one restore call per attempt, never a start
call), and returns a failed outcome. -/
theorem performFailover_restore_unimplemented
    (fcfg : FailoverConfig) (bcfg : BackupConfig) (container : ContainerConfig)
    (world : RecoveryWorld) (sourceNode targetNode backupPath : String)
    (hpre : (executeHooks world.runHook fcfg.preFailoverHooks).1 = Except.ok ())
    (hb : fcfg.backupBeforeFailover = true)
    (hbc : world.backupContainer = Except.ok backupPath)
    (hre : ∀ k, (world.attempt k).restoreResult
        = clientRestoreContainerFromBackup container.id targetNode
            (if container.storage = "" then "local-lvm" else container.storage)
            backupPath true)
    (hmax : 1 ≤ fcfg.maxRetries) :
    (performFailover fcfg bcfg container world sourceNode targetNode).1.success = false ∧
    (performFailover fcfg bcfg container world sourceNode targetNode).1.error.isSome
      = true ∧
    countRestores (performFailover fcfg bcfg container world sourceNode targetNode).2
      = fcfg.maxRetries ∧
    countStarts (performFailover fcfg bcfg container world sourceNode targetNode).2 = 0 := by
  have hre' : ∀ k, (world.attempt k).restoreResult
      = Except.error "restore functionality not yet implemented - requires direct API calls" :=
    fun k => (hre k).trans rfl
  obtain ⟨hb1, hb2, hall⟩ := failoverRetryLoop_spec fcfg.maxRetries container targetNode
    backupPath world fcfg.maxRetries 1 (by omega)
  obtain ⟨hs1, hs2, hs3, hs4⟩ := hall (fun k _ _ =>
    attemptSucceeds_eq_false_of_restore_error container targetNode backupPath world k _
      (hre' k))
  have hsome := hs4 (by omega)
  obtain ⟨e0, he0⟩ := Option.isSome_iff_exists.mp hsome
  obtain ⟨hrr, hsr⟩ := failoverRetryLoop_restore_error fcfg.maxRetries container targetNode
    backupPath world (fun k => ⟨_, hre' k⟩) fcfg.maxRetries 1
  have hperf : performFailover fcfg bcfg container world sourceNode targetNode
      = performFailoverLoopPhase fcfg container world
          { containerID := container.id, sourceNode := sourceNode,
            targetNode := targetNode, success := false, error := none }
          targetNode backupPath
          ((executeHooks world.runHook fcfg.preFailoverHooks).2
            ++ [EngineCall.backupContainer
                (if container.backupStorage = "" then bcfg.storage
                 else container.backupStorage)
                bcfg.backupDir]) := by
    simp only [performFailover, hpre, hb, hbc, if_true]
  have hphase : performFailoverLoopPhase fcfg container world
      { containerID := container.id, sourceNode := sourceNode,
        targetNode := targetNode, success := false, error := none }
      targetNode backupPath
      ((executeHooks world.runHook fcfg.preFailoverHooks).2
        ++ [EngineCall.backupContainer
            (if container.backupStorage = "" then bcfg.storage
             else container.backupStorage)
            bcfg.backupDir])
      = ({ containerID := container.id, sourceNode := sourceNode,
            targetNode := targetNode,
            success := (failoverRetryLoop fcfg.maxRetries container targetNode backupPath
              world 1 fcfg.maxRetries).success,
            error := some ("backup-restore failover failed after " ++
              toString fcfg.maxRetries ++ " attempts: " ++ e0) },
          ((executeHooks world.runHook fcfg.preFailoverHooks).2
            ++ [EngineCall.backupContainer
                (if container.backupStorage = "" then bcfg.storage
                 else container.backupStorage)
                bcfg.backupDir])
            ++ (failoverRetryLoop fcfg.maxRetries container targetNode backupPath
              world 1 fcfg.maxRetries).trace) := by
    simp only [performFailoverLoopPhase, he0]
  rw [hperf, hphase]
  refine ⟨hs1, rfl, ?_, ?_⟩
  · rw [countRestores_append, countRestores_append,
      countRestores_executeHooks, hrr]
    have hb2' : countStops (failoverRetryLoop fcfg.maxRetries container targetNode
      backupPath world 1 fcfg.maxRetries).trace = fcfg.maxRetries + 1 - 1 := hs2
    have hone : countRestores [EngineCall.backupContainer
        (if container.backupStorage = "" then bcfg.storage else container.backupStorage)
        bcfg.backupDir] = 0 := rfl
    rw [hone]
    omega
  · rw [countStarts_append, countStarts_append, countStarts_executeHooks, hsr]
    have hone : countStarts [EngineCall.backupContainer
        (if container.backupStorage = "" then bcfg.storage else container.backupStorage)
        bcfg.backupDir] = 0 := rfl
    rw [hone]

/-- C9 witness: against the bundled client's restore, a recovery with
`max_retries = 2` makes two restore attempts, never reaches a start call, and
fails. -/
theorem performFailover_restore_unimplemented_witness :
    (executeHooks world9.runHook cfg9.preFailoverHooks).1 = Except.ok () ∧
    cfg9.backupBeforeFailover = true ∧
    world9.backupContainer = Except.ok "p" ∧
    1 ≤ cfg9.maxRetries ∧
    ((performFailover cfg9 demoBackupConfig demoContainer world9 "A" "C").1.success
        = false ∧
      (performFailover cfg9 demoBackupConfig demoContainer world9 "A" "C").1.error.isSome
        = true ∧
      countRestores (performFailover cfg9 demoBackupConfig demoContainer world9 "A" "C").2
        = 2 ∧
      countStarts (performFailover cfg9 demoBackupConfig demoContainer world9 "A" "C").2
        = 0) :=
  ⟨rfl, rfl, rfl, by decide,
    performFailover_restore_unimplemented cfg9 demoBackupConfig demoContainer world9
      "A" "C" "p" rfl rfl rfl (fun _ => rfl) (by decide)⟩

